import Mathlib

/-!
Verification of `bin/seasonal_annual_disp.py` (seasonal and annual GNSS
displacement calculator).

The script is embedded shallowly:

* Calendar timestamps (`pd.Timestamp(year, month, day, hour, 0)`) become the
  `Timestamp` structure; equality of timestamps is structural, matching the
  exact-match semantics of `.loc` lookups on a unique index.

* The hourly/irregular time series handled by `make_contiguous` and
  `backdate` are indexed by integers counting minutes since the Unix epoch
  (`pd.Timestamp` values on the hourly grid are multiples of 60).

* Missing values (`NaN`) are `Option.none`; Python exceptions become
  `Except` errors.

* Module-scope variables read by the functions (`xyz` in `make_contiguous`,
  `xyzi` in `calculate_disps`) are passed as an explicit first argument,
  separate from the unused `df` parameter, so the data flow of the source is
  preserved exactly.
-/

namespace SeasonalAnnualDisp

/-- A calendar timestamp as constructed by `pd.Timestamp(year, month, day,
hour, 0)` in `calculate_disps`. -/
structure Timestamp where
  year : Int
  month : Nat
  day : Nat
  hour : Nat
deriving DecidableEq, Repr

/-- The `x` column of the dataframe used by `calculate_disps`: a
timestamp-indexed association list, giving exact-match `.loc` lookups. -/
abbrev XSeries := List (Timestamp × ℚ)

/-- The exception raised by a failed `.loc[ts]` lookup in
`calculate_disps` (a pandas `KeyError` on the missing boundary). -/
inductive DispError
  | missingBoundary (ts : Timestamp)
deriving DecidableEq, Repr

/-- `xyzi.x.loc[ts]`: exact-match lookup of `x` at `ts`; raises on a
missing key, with no nearest-neighbour fallback. -/
def lookupX (xyzi : XSeries) (ts : Timestamp) : Except DispError ℚ :=
  match xyzi.find? (fun p => decide (p.1 = ts)) with
  | some p => Except.ok p.2
  | none => Except.error (DispError.missingBoundary ts)

/-- Round-half-even to an integer, the rounding used by `np.round`. -/
def roundHalfEven (q : ℚ) : Int :=
  let f := Rat.floor q
  let r := q - f
  if r < 1 / 2 then f
  else if 1 / 2 < r then f + 1
  else if f % 2 = 0 then f else f + 1

/-- `np.round(q, 2)`: round to two decimal places, half to even. -/
def round2 (q : ℚ) : ℚ := (roundHalfEven (q * 100) : ℚ) / 100

/-- `np.abs`. -/
def absQ (q : ℚ) : ℚ := if q < 0 then -q else q

/-- The body of the inner loop of `calculate_disps` for one `(year,
period)` pair (source lines 61-68): resolve the start/end timestamps,
look both up, and return `np.abs(np.round(x_end - x_start, 2))`. -/
def dispOne (xyzi : XSeries) (year : Int)
    (bounds : (Nat × Nat) × (Nat × Nat)) : Except DispError ℚ :=
  let st : Timestamp := ⟨year, bounds.1.1, bounds.1.2, 0⟩
  let year_here : Int := if bounds.2.1 < bounds.1.1 then year + 1 else year
  let en : Timestamp := ⟨year_here, bounds.2.1, bounds.2.2, 23⟩
  do
    let xe ← lookupX xyzi en
    let xs ← lookupX xyzi st
    pure (absQ (round2 (xe - xs)))

/-- Effectful map over a list, stopping at the first error: the shape of a
Python `for` loop in which an uncaught exception aborts the whole loop. -/
def mapE {α β ε : Type} (f : α → Except ε β) : List α → Except ε (List β)
  | [] => Except.ok []
  | a :: l => do
    let b ← f a
    let bs ← mapE f l
    pure (b :: bs)

/-- `calculate_disps(df, years, periods)` (source lines 49-71).  The first
argument is the module-scope `xyzi` the source closes over; `df` is the
function's (unused) parameter.  Periods are kept as an ordered association
list, matching insertion-ordered dict iteration. -/
def calculate_disps (xyzi : XSeries) (df : XSeries) (years : List Int)
    (periods : List (String × ((Nat × Nat) × (Nat × Nat)))) :
    Except DispError (List (Int × List (String × ℚ))) :=
  mapE (fun year => do
    let store_year ← mapE (fun pb => do
      let d ← dispOne xyzi year pb.2
      pure (pb.1, d)) periods
    pure (year, store_year)) years

/-- The resolved start timestamp of a period, following the spec's words:
hour 0 of (year, start month, start day). -/
def resolvedStartSpec (year : Int) (b : (Nat × Nat) × (Nat × Nat)) :
    Timestamp :=
  ⟨year, b.1.1, b.1.2, 0⟩

/-- The resolved end timestamp of a period, following the spec's words:
hour 23 of (year', end month, end day), where year' is year + 1 when the
end month is smaller than the start month and year otherwise. -/
def resolvedEndSpec (year : Int) (b : (Nat × Nat) × (Nat × Nat)) :
    Timestamp :=
  ⟨if b.2.1 < b.1.1 then year + 1 else year, b.2.1, b.2.2, 23⟩

/-- The series of the spec's worked displacement example:
x(2021-05-01 00:00) = 100.00 and x(2022-04-30 23:00) = 103.456. -/
def exampleXyzi : XSeries :=
  [(⟨2021, 5, 1, 0⟩, 100), (⟨2022, 4, 30, 23⟩, 103456 / 1000)]

/-- C2: for every period definition and year, the start resolves to hour 0
of (year, start month, start day) and the end to hour 23 of (year', end
month, end day) with year' advanced by one exactly when the end month is
smaller than the start month; `dispOne` performs its lookups at exactly
these timestamps, and for Winter `{start:(9,1), end:(4,30)}` in 2021 the
resolved bounds are 2021-09-01 00:00 and 2022-04-30 23:00. -/
theorem period_resolution (xyzi : XSeries) (year : Int)
    (b : (Nat × Nat) × (Nat × Nat)) :
    dispOne xyzi year b =
      (do
        let xe ← lookupX xyzi (resolvedEndSpec year b)
        let xs ← lookupX xyzi (resolvedStartSpec year b)
        pure (absQ (round2 (xe - xs)))) ∧
    resolvedStartSpec year b = ⟨year, b.1.1, b.1.2, 0⟩ ∧
    (resolvedEndSpec year b).year =
      (if b.2.1 < b.1.1 then year + 1 else year) ∧
    (resolvedEndSpec year b).hour = 23 ∧
    resolvedStartSpec 2021 ((9, 1), (4, 30)) = ⟨2021, 9, 1, 0⟩ ∧
    resolvedEndSpec 2021 ((9, 1), (4, 30)) = ⟨2022, 4, 30, 23⟩ := by
  refine ⟨rfl, rfl, rfl, rfl, rfl, ?_⟩
  decide

/-- C5: `calculate_disps` reads the module-scope `xyzi`, never its `df`
parameter, so any two calls agreeing on the module-scope state, the years
and the periods return equal results whatever `df` is. -/
theorem calculate_disps_ignores_df (xyzi d1 d2 : XSeries)
    (years : List Int)
    (periods : List (String × ((Nat × Nat) × (Nat × Nat)))) :
    calculate_disps xyzi d1 years periods =
      calculate_disps xyzi d2 years periods := rfl

instance {ε α : Type} [DecidableEq ε] [DecidableEq α] :
    DecidableEq (Except ε α) := fun a b =>
  match a, b with
  | .error e1, .error e2 =>
    if h : e1 = e2 then .isTrue (by rw [h])
    else .isFalse (fun hc => h (Except.error.inj hc))
  | .error _, .ok _ => .isFalse (fun hc => Except.noConfusion hc)
  | .ok _, .error _ => .isFalse (fun hc => Except.noConfusion hc)
  | .ok v1, .ok v2 =>
    if h : v1 = v2 then .isTrue (by rw [h])
    else .isFalse (fun hc => h (Except.ok.inj hc))

unseal Rat.mul Rat.inv Rat.add Rat.sub in
/-- C1: when both resolved boundary timestamps are present, the Calculator
returns exactly `abs(round(x_end - x_start, 2))` for that `(year, period)`
pair, both at the level of the loop body and of a full `calculate_disps`
call; in particular with x(2021-05-01 00:00) = 100.00 and
x(2022-04-30 23:00) = 103.456 the Annual 2021 displacement is 3.46. -/
theorem calculate_disps_exact_lookup_round (xyzi df : XSeries) (year : Int)
    (name : String) (b : (Nat × Nat) × (Nat × Nat)) (xs xe : ℚ)
    (hst : lookupX xyzi (resolvedStartSpec year b) = Except.ok xs)
    (hen : lookupX xyzi (resolvedEndSpec year b) = Except.ok xe) :
    dispOne xyzi year b = Except.ok (absQ (round2 (xe - xs))) ∧
    calculate_disps xyzi df [year] [(name, b)] =
      Except.ok [(year, [(name, (absQ (round2 (xe - xs))))])] ∧
    calculate_disps exampleXyzi [] [2021] [("Annual", ((5, 1), (4, 30)))] =
      Except.ok [(2021, [("Annual", 346 / 100)])] := by
  have hone : dispOne xyzi year b = Except.ok (absQ (round2 (xe - xs))) := by
    rw [period_resolution xyzi year b |>.1, hen, hst]
    rfl
  refine ⟨hone, ?_, by decide⟩
  simp only [calculate_disps, mapE, hone]
  rfl

unseal Rat.mul Rat.inv Rat.add Rat.sub in
/-- C1 witness: the general statement instantiated on the spec's worked
example, with the two lookup hypotheses discharged concretely. -/
theorem calculate_disps_exact_lookup_round_witness :
    lookupX exampleXyzi (resolvedStartSpec 2021 ((5, 1), (4, 30))) =
      Except.ok 100 ∧
    lookupX exampleXyzi (resolvedEndSpec 2021 ((5, 1), (4, 30))) =
      Except.ok (103456 / 1000) ∧
    (dispOne exampleXyzi 2021 ((5, 1), (4, 30)) =
      Except.ok (absQ (round2 (103456 / 1000 - 100))) ∧
    calculate_disps exampleXyzi [] [2021] [("Annual", ((5, 1), (4, 30)))] =
      Except.ok [(2021, [("Annual", (absQ (round2 (103456 / 1000 - 100))))])] ∧
    calculate_disps exampleXyzi [] [2021] [("Annual", ((5, 1), (4, 30)))] =
      Except.ok [(2021, [("Annual", 346 / 100)])]) :=
  ⟨by decide, by decide,
    calculate_disps_exact_lookup_round exampleXyzi [] 2021 "Annual"
      ((5, 1), (4, 30)) 100 (103456 / 1000) (by decide) (by decide)⟩

/-- The series of the spec's missing-boundary scenario: both Winter 2021
boundaries (2021-09-01 00:00 and 2022-04-30 23:00) are present, but the
Annual 2021 start (2021-05-01 00:00) is absent. -/
def missingXyzi : XSeries :=
  [(⟨2021, 9, 1, 0⟩, 100), (⟨2022, 4, 30, 23⟩, 110)]

/-- The Annual and Winter periods of the source, in dict order. -/
def cexPeriods : List (String × ((Nat × Nat) × (Nat × Nat))) :=
  [("Annual", ((5, 1), (4, 30))), ("Winter", ((9, 1), (4, 30)))]

unseal Rat.mul Rat.inv Rat.add Rat.sub in
/-- C4 counterexample: with the Annual 2021 start absent but both Winter
2021 boundaries present, `calculate_disps` does not return a Winter result
alongside a scoped Annual failure; the missing-boundary lookup error
aborts the whole call, even though Winter alone would compute 10. -/
theorem missing_boundary_aborts_all :
    calculate_disps missingXyzi [] [2021] cexPeriods =
      Except.error (DispError.missingBoundary ⟨2021, 5, 1, 0⟩) ∧
    dispOne missingXyzi 2021 ((9, 1), (4, 30)) = Except.ok 10 := by
  constructor
  · decide
  · decide

/-- If an effectful map over a list succeeds, the body succeeded on every
element of the list. -/
theorem mapE_ok_of_mem {α β ε : Type} {f : α → Except ε β} :
    ∀ {l : List α} {bs : List β} {a : α},
      mapE f l = Except.ok bs → a ∈ l → ∃ b, f a = Except.ok b := by
  intro l
  induction l with
  | nil =>
    intro bs a _ ha
    cases ha
  | cons hd tl ih =>
    intro bs a hok ha
    rw [mapE] at hok
    cases hfa : f hd with
    | error e =>
      rw [hfa] at hok
      cases hok
    | ok b =>
      rw [hfa] at hok
      cases hrest : mapE f tl with
      | error e =>
        rw [hrest] at hok
        cases hok
      | ok bs' =>
        cases ha with
        | head => exact ⟨b, hfa⟩
        | tail _ hmem => exact ih hrest hmem

/-- If a bind in the `Except` monad succeeds, its first stage succeeded. -/
theorem exBind_ok {ε α β : Type} {m : Except ε α} {f : α → Except ε β}
    {b : β} (h : (m >>= f) = Except.ok b) : ∃ a, m = Except.ok a := by
  cases m with
  | error e => exact Except.noConfusion h
  | ok a => exact ⟨a, rfl⟩

/-- C4 amended: a missing boundary timestamp makes the whole
`calculate_disps` call fail, so a successful result certifies that every
`(year, period)` pair's start and end boundaries were present. -/
theorem calculate_disps_ok_requires_all_boundaries (xyzi df : XSeries)
    (years : List Int)
    (periods : List (String × ((Nat × Nat) × (Nat × Nat))))
    (res : List (Int × List (String × ℚ)))
    (hok : calculate_disps xyzi df years periods = Except.ok res)
    (year : Int) (hy : year ∈ years)
    (nb : String × ((Nat × Nat) × (Nat × Nat))) (hp : nb ∈ periods) :
    (∃ v, lookupX xyzi (resolvedStartSpec year nb.2) = Except.ok v) ∧
    (∃ v, lookupX xyzi (resolvedEndSpec year nb.2) = Except.ok v) := by
  obtain ⟨ry, hry⟩ := mapE_ok_of_mem hok hy
  obtain ⟨sy, hsy⟩ := exBind_ok hry
  obtain ⟨d, hd⟩ := mapE_ok_of_mem hsy hp
  obtain ⟨v, hv0⟩ := exBind_ok hd
  have hv : (do
      let xe ← lookupX xyzi (resolvedEndSpec year nb.2)
      let xs ← lookupX xyzi (resolvedStartSpec year nb.2)
      pure (absQ (round2 (xe - xs)))) = Except.ok v := by
    rw [← period_resolution xyzi year nb.2 |>.1]
    exact hv0
  obtain ⟨xe, hxe⟩ := exBind_ok hv
  have hv2 : (do
      let xs ← lookupX xyzi (resolvedStartSpec year nb.2)
      pure (absQ (round2 (xe - xs)))) = Except.ok v := by
    rw [hxe] at hv
    exact hv
  obtain ⟨xs, hxs⟩ := exBind_ok hv2
  exact ⟨⟨xs, hxs⟩, ⟨xe, hxe⟩⟩

/-- The missing-boundary series completed with the Annual 2021 start, so
that every boundary of `cexPeriods` is present. -/
def fullXyzi : XSeries :=
  [(⟨2021, 5, 1, 0⟩, 100), (⟨2021, 9, 1, 0⟩, 102), (⟨2022, 4, 30, 23⟩, 110)]

unseal Rat.mul Rat.inv Rat.add Rat.sub in
/-- C4 amended witness: on a series containing every boundary, a
successful `calculate_disps` call certifies the Winter 2021 boundary
lookups. -/
theorem calculate_disps_ok_requires_all_boundaries_witness :
    calculate_disps fullXyzi [] [2021] cexPeriods =
      Except.ok [(2021, [("Annual", 10), ("Winter", 8)])] ∧
    ((∃ v, lookupX fullXyzi
        (resolvedStartSpec 2021 ((9, 1), (4, 30))) = Except.ok v) ∧
    (∃ v, lookupX fullXyzi
        (resolvedEndSpec 2021 ((9, 1), (4, 30))) = Except.ok v)) :=
  ⟨by decide,
    calculate_disps_ok_requires_all_boundaries fullXyzi [] [2021] cexPeriods
      [(2021, [("Annual", 10), ("Winter", 8)])] (by decide) 2021
      (by decide) ("Winter", ((9, 1), (4, 30))) (by decide)⟩

/-- A raw sample of the loaded `xyz` table: a timestamp (in minutes since
the Unix epoch) and the three position columns, each possibly missing. -/
structure Row where
  t : Int
  x : Option ℚ
  y : Option ℚ
  z : Option ℚ
deriving DecidableEq, Repr

/-- An hourly row produced by `make_contiguous`: position columns plus the
`original` flag recording whether the hour bin held real data. -/
structure HRow where
  t : Int
  x : Option ℚ
  y : Option ℚ
  z : Option ℚ
  original : Bool
deriving DecidableEq, Repr

/-- Insert into a sorted list of rationals. -/
def insertSorted (a : ℚ) : List ℚ → List ℚ
  | [] => [a]
  | b :: l => if a ≤ b then a :: b :: l else b :: insertSorted a l

/-- Insertion sort on rationals (used only to take order statistics). -/
def sortQ : List ℚ → List ℚ
  | [] => []
  | a :: l => insertSorted a (sortQ l)

/-- The median of the non-missing values of a bin, as `Series.median`
computes it: middle element of the sorted values, or the mean of the two
middle elements; `NaN` (here `none`) when the bin is empty. -/
def median (l : List ℚ) : Option ℚ :=
  match l with
  | [] => none
  | _ =>
    let s := sortQ l
    let n := s.length
    if n % 2 = 1 then some (s.getD (n / 2) 0)
    else some ((s.getD (n / 2 - 1) 0 + s.getD (n / 2) 0) / 2)

/-- The last valid (non-missing) value at or before position `i` of a
column, with its position. -/
def prevValid (l : List (Option ℚ)) (i : Nat) : Option (Nat × ℚ) :=
  ((List.range (i + 1)).reverse).findSome?
    (fun j => (l.getD j none).map (fun v => (j, v)))

/-- The first valid (non-missing) value strictly after position `i` of a
column, with its position. -/
def nextValid (l : List (Option ℚ)) (i : Nat) : Option (Nat × ℚ) :=
  ((List.range l.length).drop (i + 1)).findSome?
    (fun j => (l.getD j none).map (fun v => (j, v)))

/-- `DataFrame.interpolate()` at position `i` of a column: a present value
is kept; a missing value between two valid neighbours is linearly
interpolated by position (the positions are the equally spaced hourly
bins); a missing value after the last valid one is filled with it; leading
missing values stay missing. -/
def interpAt (l : List (Option ℚ)) (i : Nat) : Option ℚ :=
  match l.getD i none with
  | some v => some v
  | none =>
    match prevValid l i, nextValid l i with
    | some jp, some kn =>
      some (jp.2 + (kn.2 - jp.2) * (((i : ℚ) - (jp.1 : ℚ)) / ((kn.1 : ℚ) - (jp.1 : ℚ))))
    | some jp, none => some jp.2
    | none, _ => none

/-- The hour bin of a timestamp in minutes: the floor of t / 60, as
`resample` bins timestamps by the hour. -/
def hourOf (t : Int) : Int := t.fdiv 60

/-- The computation `make_contiguous` performs on the module-scope `xyz`
(source lines 20-26): resample onto the hourly grid spanning the table by
per-bin medians, record which bins held real `x` data, interpolate each
column, and attach the `original` flag. -/
def regularizeCore (xyz : List Row) : List HRow :=
  match xyz.head?, xyz.getLast? with
  | some r0, some rn =>
    let h0 := hourOf r0.t
    let h1 := hourOf rn.t
    let n := (h1 - h0).toNat + 1
    let colOf : (Row → Option ℚ) → List (Option ℚ) := fun getv =>
      (List.range n).map (fun k =>
        median ((xyz.filter
          (fun r => decide (hourOf r.t = h0 + (k : Int)))).filterMap getv))
    let colX := colOf (fun r => r.x)
    let colY := colOf (fun r => r.y)
    let colZ := colOf (fun r => r.z)
    (List.range n).map (fun (k : Nat) =>
      { t := 60 * (h0 + (k : Int)),
        x := interpAt colX k,
        y := interpAt colY k,
        z := interpAt colZ k,
        original := (colX.getD k none).isSome })
  | _, _ => []

/-- `make_contiguous(df)` (source lines 20-26): the body reads the
module-scope `xyz` (first argument), never the `df` parameter. -/
def make_contiguous (xyz : List Row) (df : List Row) : List HRow :=
  regularizeCore xyz

/-- Forgetting the `original` column, to feed an hourly table back into
the pipeline. -/
def hrowToRow (r : HRow) : Row := ⟨r.t, r.x, r.y, r.z⟩

/-- C9: `make_contiguous` resamples the module-scope `xyz`, never its `df`
parameter, so its output is invariant under changing `df`. -/
theorem make_contiguous_ignores_df (xyz d1 d2 : List Row) :
    make_contiguous xyz d1 = make_contiguous xyz d2 := rfl

/-- C7: applying the Regularizer a second time to the Regularizer's output
for a table already on a gap-free hourly grid returns that output
unchanged.  (This holds for the degenerate reason established by C9: the
function ignores its dataframe argument entirely, so the second
application returns exactly what the first did.) -/
theorem make_contiguous_idempotent (xyz df : List Row)
    (hgrid : df.Chain' (fun a b => b.t = a.t + 60))
    (hhour : ∀ r ∈ df, r.t % 60 = 0) :
    make_contiguous xyz ((make_contiguous xyz df).map hrowToRow) =
      make_contiguous xyz df := rfl

/-- C7 witness: the idempotence law instantiated on a concrete two-hour
gap-free table. -/
theorem make_contiguous_idempotent_witness :
    ([⟨0, some 1, some 2, some 3⟩,
      (⟨60, some 4, some 5, some 6⟩ : Row)].Chain'
        (fun a b => b.t = a.t + 60)) ∧
    make_contiguous [⟨0, some 1, some 2, some 3⟩]
        ((make_contiguous [⟨0, some 1, some 2, some 3⟩]
          [⟨0, some 1, some 2, some 3⟩, ⟨60, some 4, some 5, some 6⟩]).map
            hrowToRow) =
      make_contiguous [⟨0, some 1, some 2, some 3⟩]
        [⟨0, some 1, some 2, some 3⟩, ⟨60, some 4, some 5, some 6⟩] :=
  ⟨by simp [List.chain'_cons],
    make_contiguous_idempotent [⟨0, some 1, some 2, some 3⟩]
      [⟨0, some 1, some 2, some 3⟩, ⟨60, some 4, some 5, some 6⟩]
      (by simp [List.chain'_cons]) (by decide)⟩

/-- C6: for a chronologically ordered, non-empty input, the Regularizer's
output is indexed by exactly the contiguous hourly grid from the first to
the last hour present in the input: consecutive indices differ by one
hour, the grid starts at the first hour and ends at the last hour, and no
hour is duplicated. -/
theorem make_contiguous_contiguous_grid (xyz df : List Row) (r0 rn : Row)
    (hh : xyz.head? = some r0) (hl : xyz.getLast? = some rn)
    (hle : r0.t ≤ rn.t) :
    ((make_contiguous xyz df).map (fun r => r.t)).Chain'
      (fun a b => b = a + 60) ∧
    ((make_contiguous xyz df).map (fun r => r.t)).head? =
      some (60 * hourOf r0.t) ∧
    ((make_contiguous xyz df).map (fun r => r.t)).getLast? =
      some (60 * hourOf rn.t) ∧
    ((make_contiguous xyz df).map (fun r => r.t)).Nodup := by
  have h01 : hourOf r0.t ≤ hourOf rn.t := by
    unfold hourOf
    rw [Int.fdiv_eq_ediv _ (by norm_num), Int.fdiv_eq_ediv _ (by norm_num)]
    exact Int.ediv_le_ediv (by norm_num) hle
  have hmc : (make_contiguous xyz df).map (fun r => r.t) =
      (List.range ((hourOf rn.t - hourOf r0.t).toNat + 1)).map
        (fun (k : Nat) => 60 * (hourOf r0.t + (k : Int))) := by
    simp only [make_contiguous, regularizeCore, hh, hl, List.map_map]
    rfl
  rw [hmc]
  refine ⟨?_, ?_, ?_, ?_⟩
  · rw [List.chain'_map]
    refine (List.chain'_range_succ _ _).2 ?_
    intro m _
    push_cast
    ring
  · rw [List.head?_map, List.head?_range]
    simp
  · rw [List.getLast?_map, List.getLast?_range]
    have hn : (hourOf rn.t - hourOf r0.t).toNat + 1 ≠ 0 := by omega
    have ht : ((hourOf rn.t - hourOf r0.t).toNat : Int) =
        hourOf rn.t - hourOf r0.t := Int.toNat_of_nonneg (by omega)
    simp only [hn, if_false, Nat.add_sub_cancel, Option.map_some']
    rw [ht]
    congr 1
    ring
  · refine List.Nodup.map ?_ (List.nodup_range _)
    intro a b hab
    dsimp only at hab
    omega

/-- C6 witness: the grid law instantiated on a concrete input with two
samples 90 minutes apart, whose hourly grid is hours 0 and 1. -/
theorem make_contiguous_contiguous_grid_witness :
    ((0 : Int) ≤ 90) ∧
    (((make_contiguous
        [⟨0, some 1, some 1, some 1⟩, ⟨90, some 2, none, some 3⟩]
        []).map (fun r => r.t)).Chain' (fun a b => b = a + 60) ∧
    ((make_contiguous
        [⟨0, some 1, some 1, some 1⟩, ⟨90, some 2, none, some 3⟩]
        []).map (fun r => r.t)).head? = some (60 * hourOf 0) ∧
    ((make_contiguous
        [⟨0, some 1, some 1, some 1⟩, ⟨90, some 2, none, some 3⟩]
        []).map (fun r => r.t)).getLast? = some (60 * hourOf 90) ∧
    ((make_contiguous
        [⟨0, some 1, some 1, some 1⟩, ⟨90, some 2, none, some 3⟩]
        []).map (fun r => r.t)).Nodup) :=
  ⟨by norm_num,
    make_contiguous_contiguous_grid
      [⟨0, some 1, some 1, some 1⟩, ⟨90, some 2, none, some 3⟩] []
      ⟨0, some 1, some 1, some 1⟩ ⟨90, some 2, none, some 3⟩
      rfl rfl (by norm_num)⟩

/-- A row of the regularized table as `backdate` sees it: timestamp in
minutes since the Unix epoch, position columns, and the `original` flag
(all columns other than the timestamp may be missing, because
`pd.concat` fills columns absent from a piece with `NaN`). -/
structure BRow where
  t : Int
  x : Option ℚ
  y : Option ℚ
  z : Option ℚ
  original : Option Bool
deriving DecidableEq, Repr

/-- Python exceptions that can escape `backdate`. -/
inductive PyError
  /-- `df.index[0]` on an empty frame. -/
  | indexError
  /-- statsmodels refuses `NaN` values in the regression data. -/
  | missingData
  /-- The least-squares problem has no unique solution (fewer than two
  distinct time points); the spec calls this `InsufficientDataError`. -/
  | insufficientData
  /-- `UnboundLocalError`: the local variable `xyzi` of `backdate` is read
  by `return xyzi` without having been assigned, because the only
  assignment to it sits inside the `if` branch. -/
  | unboundLocalXyzi
deriving DecidableEq, Repr

/-- `DatetimeIndex.to_julian_date()` for a timestamp in minutes since the
Unix epoch: the epoch is Julian day 2440587.5 and a day has 1440
minutes. -/
def toJulianDate (t : Int) : ℚ := (t : ℚ) / 1440 + 4881175 / 2

/-- `pd.date_range(start, stop, freq)` in minutes: the timestamps
`start + k * step` for `k = 0, 1, ...` that do not exceed `stop` (both
endpoints included when they sit on the grid). -/
def dateRange (start stop step : Int) : List Int :=
  (List.range (((stop - start).fdiv step).toNat + 1)).map
    (fun (k : Nat) => start + step * (k : Int))

/-- `sm.OLS(y, sm.add_constant(X)).fit()` followed by `.predict`: the
ordinary least-squares line `x = a + b * t` through the points `ps`,
returned as `(a, b)`.  The normal equations have the unique solution below
exactly when the design has two distinct time points; otherwise the linear
fit is undefined and `none` models the failure. -/
def olsFit (ps : List (ℚ × ℚ)) : Option (ℚ × ℚ) :=
  let n : ℚ := (ps.length : ℚ)
  let st := (ps.map (fun p => p.1)).sum
  let sy := (ps.map (fun p => p.2)).sum
  let stt := (ps.map (fun p => p.1 * p.1)).sum
  let sty := (ps.map (fun p => p.1 * p.2)).sum
  let d := n * stt - st * st
  if d = 0 then none
  else
    let b := (n * sty - st * sy) / d
    let a := (sy - b * st) / n
    some (a, b)

/-- `backdate(df, start, freq='1H', sample)` (source lines 28-47).  When
the series starts after `start`, fit an OLS line to the julian dates and
`x` values of the first `sample` rows, predict `x` on the hourly grid from
`start` to the first timestamp, and prepend the synthetic rows (their
`y`, `z` and `original` columns are missing).  When the series already
starts at or before `start`, the `if` branch that assigns the local
`xyzi` is skipped and `return xyzi` raises `UnboundLocalError`. -/
def backdate (df : List BRow) (start : Int) (sample : Nat) :
    Except PyError (List BRow) :=
  match df.head? with
  | none => Except.error PyError.indexError
  | some r0 =>
    if start < r0.t then
      let synth_ts := dateRange start r0.t 60
      let firstRows := df.take sample
      if firstRows.any (fun r => r.x.isNone) then
        Except.error PyError.missingData
      else
        match olsFit (firstRows.map
            (fun r => (toJulianDate r.t, r.x.getD 0))) with
        | none => Except.error PyError.insufficientData
        | some ab =>
          let newx := synth_ts.map (fun ts =>
            ({ t := ts, x := some (ab.1 + ab.2 * toJulianDate ts),
               y := none, z := none, original := none } : BRow))
          Except.ok (newx ++ df)
    else Except.error PyError.unboundLocalXyzi

/-- C3: the no-op law fails as a code bug.  For a series that already
starts at or before the reference start (2021-05-01 00:00 is minute
26997120), `backdate` does not return the series unchanged: the local
`xyzi` is only assigned inside the extension branch, so `return xyzi`
raises `UnboundLocalError`.  Shown both for a series starting exactly at
the reference start and for one starting before it. -/
theorem backdate_noop_raises_unbound_local :
    backdate [⟨26997120, some 100, some 1, some 2, some true⟩]
      26997120 1000 = Except.error PyError.unboundLocalXyzi ∧
    backdate [⟨26997000, some 100, some 1, some 2, some true⟩]
      26997120 1000 = Except.error PyError.unboundLocalXyzi := by
  constructor
  · decide
  · decide

/-- The determinant of the OLS normal equations for the list of time
points `ts`. -/
def olsDenom (ts : List ℚ) : ℚ :=
  (ts.length : ℚ) * (ts.map (fun t => t * t)).sum - ts.sum * ts.sum

theorem sum_map_sq_sub (a : ℚ) (l : List ℚ) :
    (l.map (fun b => (a - b) * (a - b))).sum =
      (l.length : ℚ) * (a * a) - 2 * a * l.sum +
        (l.map (fun t => t * t)).sum := by
  induction l with
  | nil => simp
  | cons c l ih =>
    simp only [List.map_cons, List.sum_cons, List.length_cons, ih]
    push_cast
    ring

theorem olsDenom_cons (a : ℚ) (l : List ℚ) :
    olsDenom (a :: l) =
      olsDenom l + (l.map (fun b => (a - b) * (a - b))).sum := by
  simp only [olsDenom, List.map_cons, List.sum_cons, List.length_cons,
    sum_map_sq_sub]
  push_cast
  ring

theorem olsDenom_nonneg (l : List ℚ) : 0 ≤ olsDenom l := by
  induction l with
  | nil => simp [olsDenom]
  | cons a l ih =>
    rw [olsDenom_cons]
    have hs : 0 ≤ (l.map (fun b => (a - b) * (a - b))).sum := by
      apply List.sum_nonneg
      intro x hx
      obtain ⟨b, _, rfl⟩ := List.mem_map.1 hx
      exact mul_self_nonneg _
    linarith

theorem olsDenom_pos {a b : ℚ} {l : List ℚ} (hb : b ∈ l) (hab : a ≠ b) :
    0 < olsDenom (a :: l) := by
  rw [olsDenom_cons]
  have h1 : (a - b) * (a - b) ≤ (l.map (fun c => (a - c) * (a - c))).sum := by
    apply List.single_le_sum
    · intro x hx
      obtain ⟨c, _, rfl⟩ := List.mem_map.1 hx
      exact mul_self_nonneg _
    · exact List.mem_map.2 ⟨b, hb, rfl⟩
  have h2 : 0 < (a - b) * (a - b) := mul_self_pos.2 (sub_ne_zero.2 hab)
  have h3 := olsDenom_nonneg l
  linarith

theorem olsFit_of_denom_pos (ps : List (ℚ × ℚ))
    (hpos : 0 < olsDenom (ps.map (fun p => p.1))) :
    ∃ ab, olsFit ps = some ab := by
  have hsame : olsDenom (ps.map (fun p => p.1)) =
      (ps.length : ℚ) * (ps.map (fun p => p.1 * p.1)).sum -
        (ps.map (fun p => p.1)).sum * (ps.map (fun p => p.1)).sum := by
    simp only [olsDenom, List.map_map, List.length_map]
    rfl
  have hd : (ps.length : ℚ) * (ps.map (fun p => p.1 * p.1)).sum -
      (ps.map (fun p => p.1)).sum * (ps.map (fun p => p.1)).sum ≠ 0 := by
    rw [← hsame]
    exact ne_of_gt hpos
  simp only [olsFit]
  rw [if_neg hd]
  exact ⟨_, rfl⟩

theorem olsFit_nil : olsFit [] = none := by
  simp [olsFit]

theorem olsFit_singleton (p : ℚ × ℚ) : olsFit [p] = none := by
  simp only [olsFit, List.map_cons, List.map_nil, List.sum_cons,
    List.sum_nil, List.length_cons, List.length_nil]
  rw [if_pos (by push_cast; ring)]

/-- C8: `backdate` slices `df.index[0:sample]`, so a series shorter than
`sample` contributes all its samples (the call equals the call with
`sample = len(df)`), and with at least two chronologically ordered
samples the fit succeeds; a series of fewer than two samples starting
after the reference start fails with the insufficient-data error, the
least-squares fit being undefined on one point. -/
theorem backdate_sample_policy (df : List BRow) (start : Int) (sample : Nat)
    (r0 : BRow) (hh : df.head? = some r0) (hgt : start < r0.t)
    (hx : ∀ r ∈ df, r.x.isSome) :
    (df.length < 2 →
      backdate df start sample = Except.error PyError.insufficientData) ∧
    (df.length ≤ sample →
      backdate df start sample = backdate df start df.length) ∧
    (2 ≤ df.length → df.length ≤ sample →
      df.Chain' (fun p q => p.t < q.t) →
      ∃ out, backdate df start sample = Except.ok out) := by
  refine ⟨?_, ?_, ?_⟩
  · intro hlen
    cases df with
    | nil => cases hh
    | cons a tl =>
      cases tl with
      | cons b tl2 =>
        exfalso
        simp only [List.length_cons] at hlen
        omega
      | nil =>
        have ha : a = r0 := by
          simp only [List.head?_cons, Option.some.injEq] at hh
          exact hh
        subst ha
        have hx0 : a.x.isSome := hx a (List.mem_cons_self a [])
        cases hrx : a.x with
        | none =>
          rw [hrx] at hx0
          simp at hx0
        | some v =>
          cases sample with
          | zero =>
            simp only [backdate, List.head?_cons, if_pos hgt,
              List.take_zero, List.any_nil, Bool.false_eq_true, if_false,
              List.map_nil, olsFit_nil]
          | succ n =>
            simp only [backdate, List.head?_cons, if_pos hgt,
              List.take_succ_cons, List.take_nil, List.any_cons,
              List.any_nil, hrx, Option.isNone_some, Bool.or_false,
              Bool.false_eq_true, if_false, List.map_cons, List.map_nil,
              olsFit_singleton]
  · intro hle
    cases df with
    | nil => cases hh
    | cons a tl =>
      have ha : a = r0 := by
        simp only [List.head?_cons, Option.some.injEq] at hh
        exact hh
      subst ha
      simp only [backdate, List.head?_cons, if_pos hgt]
      rw [List.take_of_length_le hle, List.take_length]
  · intro h2 hle hchain
    cases df with
    | nil => cases hh
    | cons a tl =>
      have ha : a = r0 := by
        simp only [List.head?_cons, Option.some.injEq] at hh
        exact hh
      subst ha
      cases tl with
      | nil =>
        exfalso
        simp only [List.length_cons, List.length_nil] at h2
        omega
      | cons b rest =>
        have hablt : a.t < b.t := (List.chain'_cons.1 hchain).1
        have hj : toJulianDate a.t ≠ toJulianDate b.t := by
          intro hc
          have hq : (a.t : ℚ) = (b.t : ℚ) := by
            simp only [toJulianDate] at hc
            linarith
          have hqi : a.t = b.t := by exact_mod_cast hq
          omega
        have hpos : 0 < olsDenom (((a :: b :: rest).map
            (fun r => (toJulianDate r.t, r.x.getD 0))).map
              (fun p => p.1)) := by
          simp only [List.map_cons, List.map_map]
          exact olsDenom_pos (List.mem_cons_self _ _) hj
        obtain ⟨ab, hab⟩ := olsFit_of_denom_pos _ hpos
        have hany : ((a :: b :: rest).any fun r => r.x.isNone) = false := by
          rw [List.any_eq_false]
          intro r hr hc
          have hs := hx r hr
          rw [Option.isNone_iff_eq_none] at hc
          rw [hc] at hs
          simp at hs
        refine ⟨(dateRange start a.t 60).map (fun ts =>
            ({ t := ts, x := some (ab.1 + ab.2 * toJulianDate ts),
               y := none, z := none, original := none } : BRow)) ++
          (a :: b :: rest), ?_⟩
        simp only [backdate, List.head?_cons, if_pos hgt,
          List.take_of_length_le hle, hany, Bool.false_eq_true, if_false,
          hab]

/-- C8 witness: the sample policy instantiated on a one-row series (the
insufficient-data failure) and a two-row series (short series uses all
samples and succeeds). -/
theorem backdate_sample_policy_witness :
    (backdate [⟨60, some 5, none, none, none⟩] 0 1000 =
      Except.error PyError.insufficientData) ∧
    (backdate [⟨60, some 5, none, none, none⟩,
        ⟨120, some 6, none, none, none⟩] 0 1000 =
      backdate [⟨60, some 5, none, none, none⟩,
        ⟨120, some 6, none, none, none⟩] 0 2) ∧
    (∃ out, backdate [⟨60, some 5, none, none, none⟩,
        ⟨120, some 6, none, none, none⟩] 0 1000 = Except.ok out) :=
  ⟨(backdate_sample_policy [⟨60, some 5, none, none, none⟩] 0 1000 _
      rfl (by decide) (by decide)).1 (by decide),
   (backdate_sample_policy [⟨60, some 5, none, none, none⟩,
        ⟨120, some 6, none, none, none⟩] 0 1000 _
      rfl (by decide) (by decide)).2.1 (by decide),
   (backdate_sample_policy [⟨60, some 5, none, none, none⟩,
        ⟨120, some 6, none, none, none⟩] 0 1000 _
      rfl (by decide) (by decide)).2.2 (by decide) (by decide)
      (by norm_num [List.chain'_cons])⟩

/-- `pd.date_range(s, e, freq)` includes its right endpoint whenever the
endpoint sits on the grid. -/
theorem stop_mem_dateRange {s e : Int} (hlt : s < e)
    (hmod : (e - s) % 60 = 0) : e ∈ dateRange s e 60 := by
  have hdvd : (60 : Int) ∣ (e - s) := Int.dvd_of_emod_eq_zero hmod
  obtain ⟨m, hm⟩ := hdvd
  have hm1 : 1 ≤ m := by omega
  have hfd : (e - s).fdiv 60 = m := by
    rw [hm, Int.mul_fdiv_cancel_left]
    norm_num
  unfold dateRange
  rw [hfd]
  refine List.mem_map.2 ⟨m.toNat, ?_, ?_⟩
  · exact List.mem_range.2 (by omega)
  · have hc : ((m.toNat : Int)) = m := Int.toNat_of_nonneg (by omega)
    rw [hc]
    omega

/-- C10: when the series' first timestamp sits on the hourly grid
anchored at the reference start, the synthetic grid includes that first
timestamp, so a successful `backdate` output contains it twice -- once as
a synthetic row with only `x` populated (missing `y`, `z`, `original`),
once as the original first row -- and the output index is therefore not
strictly increasing. -/
theorem backdate_duplicate_first_timestamp (df : List BRow) (start : Int)
    (sample : Nat) (r0 : BRow) (out : List BRow)
    (hh : df.head? = some r0) (hgt : start < r0.t)
    (hmod : (r0.t - start) % 60 = 0)
    (hout : backdate df start sample = Except.ok out) :
    2 ≤ (out.map (fun r => r.t)).count r0.t ∧
    (∃ r ∈ out, r.t = r0.t ∧ r.x.isSome ∧ r.y = none ∧ r.z = none ∧
      r.original = none) ∧
    r0 ∈ out ∧
    ¬ (out.map (fun r => r.t)).Chain' (· < ·) := by
  cases df with
  | nil => cases hh
  | cons a tl =>
    have ha : a = r0 := by
      simp only [List.head?_cons, Option.some.injEq] at hh
      exact hh
    subst ha
    simp only [backdate, List.head?_cons, if_pos hgt] at hout
    by_cases hany : (((a :: tl).take sample).any fun r => r.x.isNone) = true
    · rw [if_pos hany] at hout
      cases hout
    · rw [if_neg hany] at hout
      cases hfit : olsFit (((a :: tl).take sample).map
          (fun r => (toJulianDate r.t, r.x.getD 0))) with
      | none =>
        simp only [hfit] at hout
        cases hout
      | some ab =>
        simp only [hfit] at hout
        have hoeq := Except.ok.inj hout
        subst hoeq
        set rowfn : Int → BRow := fun ts =>
          ({ t := ts, x := some (ab.1 + ab.2 * toJulianDate ts),
             y := none, z := none, original := none } : BRow) with hrowfn
        have hmem : a.t ∈ dateRange start a.t 60 :=
          stop_mem_dateRange hgt hmod
        have hsynth : rowfn a.t ∈ (dateRange start a.t 60).map rowfn :=
          List.mem_map.2 ⟨a.t, hmem, rfl⟩
        have hcount : 2 ≤ ((((dateRange start a.t 60).map rowfn) ++
            (a :: tl)).map (fun r => r.t)).count a.t := by
          rw [List.map_append, List.count_append]
          have h1 : 0 < (((dateRange start a.t 60).map rowfn).map
              (fun r => r.t)).count a.t := by
            rw [List.count_pos_iff]
            exact List.mem_map.2 ⟨rowfn a.t, hsynth, rfl⟩
          have h2 : 0 < ((a :: tl).map (fun r => r.t)).count a.t := by
            rw [List.count_pos_iff]
            exact List.mem_map.2 ⟨a, List.mem_cons_self a tl, rfl⟩
          omega
        refine ⟨hcount, ?_, ?_, ?_⟩
        · exact ⟨rowfn a.t, List.mem_append_left _ hsynth, rfl, rfl, rfl,
            rfl, rfl⟩
        · exact List.mem_append_right _ (List.mem_cons_self a tl)
        · intro hch
          have hpw := List.chain'_iff_pairwise.1 hch
          have hnd : ((((dateRange start a.t 60).map rowfn) ++
              (a :: tl)).map (fun r => r.t)).Nodup :=
            hpw.imp (fun h => ne_of_lt h)
          have hc1 := List.nodup_iff_count_le_one.1 hnd a.t
          omega

unseal Rat.mul Rat.inv Rat.add Rat.sub in
/-- C10 witness: a two-row series starting at minute 120 on the hourly
grid anchored at minute 0, whose `backdate` output contains minute 120
twice. -/
theorem backdate_duplicate_first_timestamp_witness :
    (backdate [⟨120, some 10, some 0, some 0, some true⟩,
        ⟨180, some 11, some 0, some 0, some true⟩] 0 1000 =
      Except.ok
        [⟨0, some 8, none, none, none⟩, ⟨60, some 9, none, none, none⟩,
         ⟨120, some 10, none, none, none⟩,
         ⟨120, some 10, some 0, some 0, some true⟩,
         ⟨180, some 11, some 0, some 0, some true⟩]) ∧
    (2 ≤ (([⟨0, some 8, none, none, none⟩,
         (⟨60, some 9, none, none, none⟩ : BRow),
         ⟨120, some 10, none, none, none⟩,
         ⟨120, some 10, some 0, some 0, some true⟩,
         ⟨180, some 11, some 0, some 0, some true⟩] : List BRow).map
          (fun r => r.t)).count 120 ∧
    (∃ r ∈ ([⟨0, some 8, none, none, none⟩,
         (⟨60, some 9, none, none, none⟩ : BRow),
         ⟨120, some 10, none, none, none⟩,
         ⟨120, some 10, some 0, some 0, some true⟩,
         ⟨180, some 11, some 0, some 0, some true⟩] : List BRow),
      r.t = 120 ∧ r.x.isSome ∧ r.y = none ∧ r.z = none ∧
        r.original = none) ∧
    (⟨120, some 10, some 0, some 0, some true⟩ : BRow) ∈
      ([⟨0, some 8, none, none, none⟩,
         (⟨60, some 9, none, none, none⟩ : BRow),
         ⟨120, some 10, none, none, none⟩,
         ⟨120, some 10, some 0, some 0, some true⟩,
         ⟨180, some 11, some 0, some 0, some true⟩] : List BRow) ∧
    ¬ (([⟨0, some 8, none, none, none⟩,
         (⟨60, some 9, none, none, none⟩ : BRow),
         ⟨120, some 10, none, none, none⟩,
         ⟨120, some 10, some 0, some 0, some true⟩,
         ⟨180, some 11, some 0, some 0, some true⟩] : List BRow).map
          (fun r => r.t)).Chain' (· < ·)) :=
  ⟨by decide,
    backdate_duplicate_first_timestamp
      [⟨120, some 10, some 0, some 0, some true⟩,
       ⟨180, some 11, some 0, some 0, some true⟩] 0 1000
      ⟨120, some 10, some 0, some 0, some true⟩
      [⟨0, some 8, none, none, none⟩, ⟨60, some 9, none, none, none⟩,
       ⟨120, some 10, none, none, none⟩,
       ⟨120, some 10, some 0, some 0, some true⟩,
       ⟨180, some 11, some 0, some 0, some true⟩]
      rfl (by decide) (by decide) (by decide)⟩

end SeasonalAnnualDisp
